import Mathlib

/-!
Verification of the transport-selection and WebSocket-backend subsystem:
the connection-string resolver (`BuiltInConnectionString` in
`crates/rpc-client/src/builtin.rs`) and the WebSocket backend driver
(`crates/transport-ws/src/native.rs`).

The embedding models the fully-featured build (features `reqwest`, `ws`,
`ipc` enabled, non-wasm target). External collaborators that are not part
of the repository (the `url` crate's URL parser, `std::net::SocketAddr`
parsing, filesystem metadata queries) are passed in as explicit context
functions, and theorems quantify over them.
-/

deriving instance DecidableEq for Except

/-- A parsed URL as produced by the external `url` crate: we keep the fields
the code under verification inspects — the scheme, the userinfo portion
(username, optional password), and the serialized form. -/
structure Url where
  scheme : String
  userinfo : Option (String × Option String)
  full : String
deriving DecidableEq, Repr

/-- `std::time::Duration`: seconds plus sub-second nanoseconds. -/
structure Duration where
  secs : Nat
  nanos : Nat
deriving DecidableEq, Repr

/-- `Duration::from_secs`. -/
def Duration.from_secs (n : Nat) : Duration := ⟨n, 0⟩

/-- `alloy_transport::Authorization` (declared outside `src/`): HTTP Basic
credentials or a bearer token. -/
inductive Authorization where
  | basic (username : String) (password : String)
  | bearer (token : String)
deriving DecidableEq, Repr

/-- `TransportError` as the code under verification builds it: both
`TransportErrorKind::custom` and `custom_str` wrap a message. -/
inductive TransportError where
  | custom (msg : String)
deriving DecidableEq, Repr

/-- `BuiltInConnectionString` (builtin.rs lines 11-21): HTTP url, or
WS url with optional auth, optional max retries and optional retry
interval, or an IPC path (paths are modelled as their strings). -/
inductive BuiltInConnectionString where
  | Http (url : Url)
  | Ws (url : Url) (auth : Option Authorization) (max_retries : Option Nat)
      (retry_interval : Option Duration)
  | Ipc (path : String)
deriving DecidableEq, Repr

/-- Rust's `str::starts_with`, written over the character list so that it
evaluates inside the kernel. -/
def strStartsWith (s p : String) : Bool := p.data.isPrefixOf s.data

/-- Rust's prefix removal (`strip_prefix` keeps the tail), written over the
character list so that it evaluates inside the kernel. -/
def strDrop (s : String) (n : Nat) : String := ⟨s.data.drop n⟩

/-- External collaborators used by the parser, passed as a context:
`parseUrl` is `url::Url::parse` (error = its message), `isSocketAddr` is
`s.parse::<std::net::SocketAddr>().is_ok()`, and `stat` is
`std::path::Path::metadata` (error = the OS error's message). -/
structure ParseCtx where
  parseUrl : String → Except String Url
  isSocketAddr : String → Bool
  stat : String → Except String Unit

namespace BuiltInConnectionString

/-- `try_as_http` (builtin.rs lines 124-140): prepend `http://` when the
input starts with `localhost:` or parses as a socket address, URL-parse,
then require scheme `http` or `https`. -/
def try_as_http (ctx : ParseCtx) (s : String) : Except TransportError BuiltInConnectionString :=
  let s2 := if strStartsWith s "localhost:" || ctx.isSocketAddr s then "http://" ++ s else s
  match ctx.parseUrl s2 with
  | .error e => .error (.custom e)
  | .ok url =>
    if url.scheme ≠ "http" ∧ url.scheme ≠ "https" then
      .error (.custom ("invalid URL scheme: " ++ url.scheme ++ "; expected `http` or `https`"))
    else
      .ok (.Http url)

/-- `Authorization::extract_from_url` lives in `alloy_transport`, outside
`src/`. Modelled from the spec: extract authorization from the URL's
userinfo if present; absent userinfo yields no authorization. -/
def extract_from_url (url : Url) : Option Authorization :=
  url.userinfo.map fun ui => .basic ui.1 (ui.2.getD "")

/-- `try_as_ws` (builtin.rs lines 144-162): same local-address rewriting
with `ws://`, require scheme `ws` or `wss`, extract auth from the URL,
leave both retry fields unset. -/
def try_as_ws (ctx : ParseCtx) (s : String) : Except TransportError BuiltInConnectionString :=
  let s2 := if strStartsWith s "localhost:" || ctx.isSocketAddr s then "ws://" ++ s else s
  match ctx.parseUrl s2 with
  | .error e => .error (.custom e)
  | .ok url =>
    if url.scheme ≠ "ws" ∧ url.scheme ≠ "wss" then
      .error (.custom ("invalid URL scheme: " ++ url.scheme ++ "; expected `ws` or `wss`"))
    else
      .ok (.Ws url (extract_from_url url) none none)

/-- The prefix stripping of `try_as_ipc` (builtin.rs line 168):
`s.strip_prefix("file://").or_else(|| s.strip_prefix("ipc://")).unwrap_or(s)`. -/
def stripIpcScheme (s : String) : String :=
  if strStartsWith s "file://" then strDrop s 7
  else if strStartsWith s "ipc://" then strDrop s 6
  else s

/-- `try_as_ipc` (builtin.rs lines 167-178): strip a `file://` or `ipc://`
scheme, stat the resulting path, and return it as an `Ipc` descriptor. -/
def try_as_ipc (ctx : ParseCtx) (s : String) : Except TransportError BuiltInConnectionString :=
  let p := stripIpcScheme s
  match ctx.stat p with
  | .error e => .error (.custom ("failed to read IPC path " ++ p ++ ": " ++ e))
  | .ok _ => .ok (.Ipc p)

/-- `with_max_retries` (builtin.rs lines 185-192). -/
def with_max_retries (self : BuiltInConnectionString) (max_retries : Nat) :
    BuiltInConnectionString :=
  match self with
  | .Ws url auth _ retry_interval => .Ws url auth (some max_retries) retry_interval
  | _ => self

/-- `with_retry_interval` (builtin.rs lines 199-206). -/
def with_retry_interval (self : BuiltInConnectionString) (retry_interval : Duration) :
    BuiltInConnectionString :=
  match self with
  | .Ws url auth max_retries _ => .Ws url auth max_retries (some retry_interval)
  | _ => self

/-- `with_retry_settings` (builtin.rs lines 213-224). -/
def with_retry_settings (self : BuiltInConnectionString) (max_retries : Nat)
    (retry_interval : Duration) : BuiltInConnectionString :=
  match self with
  | .Ws url auth _ _ => .Ws url auth (some max_retries) (some retry_interval)
  | _ => self

/-- Rust's `Result::or_else` on our `Except`. -/
def resOrElse (r : Except TransportError BuiltInConnectionString)
    (f : TransportError → Except TransportError BuiltInConnectionString) :
    Except TransportError BuiltInConnectionString :=
  match r with
  | .ok v => .ok v
  | .error e => f e

/-- `FromStr::from_str` (builtin.rs lines 231-242) with all three
transport features enabled: start from the "no transports" error and
`or_else` through the HTTP, WS and IPC sub-parsers in that order. -/
def from_str (ctx : ParseCtx) (s : String) : Except TransportError BuiltInConnectionString :=
  let res : Except TransportError BuiltInConnectionString :=
    .error (.custom ("No transports enabled. Enable one of: reqwest, hyper, ws, ipc. Connection info: " ++ s))
  let res := resOrElse res (fun _ => try_as_http ctx s)
  let res := resOrElse res (fun _ => try_as_ws ctx s)
  let res := resOrElse res (fun _ => try_as_ipc ctx s)
  res

end BuiltInConnectionString

/-- Split a character list at every slash. -/
def splitOnSlash : List Char → List (List Char)
  | [] => [[]]
  | c :: rest =>
    let r := splitOnSlash rest
    if c = '/' then [] :: r
    else
      match r with
      | [] => [[c]]
      | g :: gs => (c :: g) :: gs

/-- The spec's words, not the code: a canonicalized path, with `.` segments
dropped and `..` segments resolved against their parent. Used only to
compare the spec's claim about `Ipc.path` with what the code returns. -/
def canonicalizePath (s : String) : String :=
  let parts := (splitOnSlash s.data).filter fun p => !p.isEmpty && p != ['.']
  let resolved :=
    parts.foldl (fun acc p => if p = ['.', '.'] then acc.dropLast else acc ++ [p]) []
  ⟨(if strStartsWith s "/" then ['/'] else []) ++ List.intercalate ['/'] resolved⟩

/-! ## WebSocket connector and backend driver (`crates/transport-ws/src/native.rs`) -/

/-- `WsConnect` (native.rs lines 21-34). The websocket config is kept
abstract as an optional opaque value; the code never inspects it. -/
structure WsConnect where
  url : String
  auth : Option Authorization
  config : Option Unit
  max_retries : Nat
  retry_interval : Duration
deriving DecidableEq, Repr

namespace WsConnect

/-- `WsConnect::new` (native.rs lines 38-46). -/
def new (url : String) : WsConnect :=
  { url := url, auth := none, config := none, max_retries := 10,
    retry_interval := Duration.from_secs 3 }

/-- `WsConnect::with_auth` (native.rs lines 49-52). -/
def with_auth (self : WsConnect) (auth : Authorization) : WsConnect :=
  { self with auth := some auth }

/-- `WsConnect::with_max_retries` (native.rs lines 77-80). -/
def with_max_retries (self : WsConnect) (max_retries : Nat) : WsConnect :=
  { self with max_retries := max_retries }

/-- `WsConnect::with_retry_interval` (native.rs lines 84-87). -/
def with_retry_interval (self : WsConnect) (retry_interval : Duration) : WsConnect :=
  { self with retry_interval := retry_interval }

end WsConnect

/-- The connector that `connect_boxed` builds for a `Ws` descriptor
(builtin.rs lines 73-102, non-wasm): start from `WsConnect::new`, apply
`with_auth` when auth is present, then each retry option when present. -/
def wsConnectorFor (url : Url) (auth : Option Authorization) (max_retries : Option Nat)
    (retry_interval : Option Duration) : WsConnect :=
  let c := WsConnect.new url.full
  let c := match auth with
    | some a => c.with_auth a
    | none => c
  let c := match max_retries with
    | some r => c.with_max_retries r
    | none => c
  match retry_interval with
  | some i => c.with_retry_interval i
  | none => c

/-- The retry configuration the pub/sub `ConnectionHandle` ends up with.
`ConnectionHandle` lives in `alloy_pubsub`, outside `src/`. Modelled from
the spec: the handle is decorated with the connector's effective retry
configuration (native.rs line 121 forwards `self.max_retries` and
`self.retry_interval`). -/
structure RetryConfig where
  max_retries : Nat
  retry_interval : Duration
deriving DecidableEq, Repr

/-- The effective retry configuration produced by `connect` for a `Ws`
descriptor: the connector's retry fields, forwarded to the handle. -/
def connectRetryConfig (url : Url) (auth : Option Authorization) (max_retries : Option Nat)
    (retry_interval : Option Duration) : RetryConfig :=
  let c := wsConnectorFor url auth max_retries retry_interval
  ⟨c.max_retries, c.retry_interval⟩

/-- `tungstenite::Message`. Payloads are byte lists; a close frame
optionally carries a reason. -/
inductive WsMessage where
  | text (t : String)
  | binary (b : List Nat)
  | ping (b : List Nat)
  | pong (b : List Nat)
  | close (reason : Option String)
  | frame
deriving DecidableEq, Repr

/-- `Message::is_pong`. -/
def WsMessage.is_pong : WsMessage → Bool
  | .pong _ => true
  | _ => false

/-- `WsBackend::handle` (native.rs lines 128-145), parameterized by
`handle_text` (defined outside `src/`, in the response-routing logic):
text is forwarded to it, close and binary are errors, ping, pong and raw
frames are ignored. -/
def WsBackend.handle (handle_text : String → Except Unit Unit) :
    WsMessage → Except Unit Unit
  | .text t => handle_text t
  | .close _ => .error ()
  | .binary _ => .error ()
  | .ping _ => .ok ()
  | .pong _ => .ok ()
  | .frame => .ok ()

/-- One wake-up of the driver's biased select (native.rs lines 169-233).
The branch taken and the outcome of the socket writes it performs are the
event: a frontend dispatch together with its send result, the frontend
channel yielding `None`, the keepalive deadline firing together with the
ping's send result, or the socket yielding a message, an error, or the end
of the stream. -/
inductive WsEvent where
  | dispatch (msg : String) (sendOk : Bool)
  | frontendGone
  | keepalive (pingOk : Bool)
  | sockItem (m : WsMessage)
  | sockErr
  | sockEnd
deriving DecidableEq, Repr

/-- Externally visible actions of one driver iteration. `sendPing`
carries its payload so that the empty ping payload is observable. -/
inductive WsAction where
  | resetKeepalive
  | sendText (msg : String)
  | sendPing (payload : List Nat)
  | closeWithError
deriving DecidableEq, Repr

/-- Outcome of one loop iteration: continue with the new `expecting_pong`
flag, or break out of the loop with the final value of `errored`. -/
inductive StepOut where
  | next (expecting_pong : Bool) (acts : List WsAction)
  | exit (errored : Bool) (acts : List WsAction)
deriving DecidableEq, Repr

/-- One iteration of the driver loop (native.rs lines 169-233). The
dispatch arm resets the keepalive deadline and sends the message, breaking
with `errored = true` on a send error; `None` from the frontend breaks with
`errored` still false; the keepalive arm breaks with `errored = true` when
a pong is outstanding and otherwise resets the deadline, sends an empty
ping and sets `expecting_pong`; a socket item first clears `expecting_pong`
on a pong, then breaks with `errored = true` exactly when `handle` fails;
a socket error or stream end breaks with `errored = true`. -/
def wsStep (handle_text : String → Except Unit Unit) (expecting_pong : Bool) :
    WsEvent → StepOut
  | .dispatch msg sendOk =>
    if sendOk then .next expecting_pong [.resetKeepalive, .sendText msg]
    else .exit true [.resetKeepalive, .sendText msg]
  | .frontendGone => .exit false []
  | .keepalive pingOk =>
    if expecting_pong then .exit true []
    else if pingOk then .next true [.resetKeepalive, .sendPing []]
    else .exit true [.resetKeepalive, .sendPing []]
  | .sockItem m =>
    let ep := if m.is_pong then false else expecting_pong
    match WsBackend.handle handle_text m with
    | .ok _ => .next ep []
    | .error _ => .exit true []
  | .sockErr => .exit true []
  | .sockEnd => .exit true []

/-- Result of running the loop over a finite trace of events: still
running (with the current `expecting_pong`), or broken out with the final
`errored`. -/
inductive RunOut where
  | running (expecting_pong : Bool)
  | exited (errored : Bool)
deriving DecidableEq, Repr

/-- The driver loop over a trace of events, accumulating the actions
performed; events after a break are not consumed. -/
def runLoop (handle_text : String → Except Unit Unit) (expecting_pong : Bool) :
    List WsEvent → RunOut × List WsAction
  | [] => (.running expecting_pong, [])
  | e :: es =>
    match wsStep handle_text expecting_pong e with
    | .next ep acts =>
      ((runLoop handle_text ep es).1, acts ++ (runLoop handle_text ep es).2)
    | .exit err acts => (.exited err, acts)

/-- `WsBackend::spawn` (native.rs lines 153-240): run the loop starting
with `expecting_pong = false`, and after the loop breaks call
`close_with_error` on the frontend interface exactly when `errored`. -/
def driverRun (handle_text : String → Except Unit Unit) (es : List WsEvent) :
    RunOut × List WsAction :=
  let r := runLoop handle_text false es
  if r.1 = .exited true then (r.1, r.2 ++ [.closeWithError]) else r

/-- Events that keep the driver looping without clearing
`expecting_pong`: a dispatch whose send succeeds, or a socket message that
is not a pong and that `handle` accepts. -/
def preservesPongWait (handle_text : String → Except Unit Unit) : WsEvent → Prop
  | .dispatch _ sendOk => sendOk = true
  | .sockItem m => m.is_pong = false ∧ WsBackend.handle handle_text m = .ok ()
  | _ => False

/-- The action list of a step outcome, whether the loop continues or breaks. -/
def StepOut.acts : StepOut → List WsAction
  | .next _ a => a
  | .exit _ a => a

lemma wsStep_no_close (ht : String → Except Unit Unit) (ep : Bool) (e : WsEvent) :
    WsAction.closeWithError ∉ (wsStep ht ep e).acts := by
  cases e <;> simp only [wsStep] <;> (repeat' split) <;> simp [StepOut.acts]

lemma runLoop_no_close (ht : String → Except Unit Unit) (ep : Bool) (es : List WsEvent) :
    WsAction.closeWithError ∉ (runLoop ht ep es).2 := by
  induction es generalizing ep with
  | nil => simp [runLoop]
  | cons e es ih =>
    have hs := wsStep_no_close ht ep e
    rcases h : wsStep ht ep e with ⟨ep2, acts⟩ | ⟨err, acts⟩ <;>
      rw [h] at hs <;> simp only [StepOut.acts] at hs <;>
      simp [runLoop, h, List.mem_append, hs, ih]

lemma runLoop_append (ht : String → Except Unit Unit) (ep : Bool) (es1 es2 : List WsEvent) :
    runLoop ht ep (es1 ++ es2) =
      match runLoop ht ep es1 with
      | (.running ep2, acts) => ((runLoop ht ep2 es2).1, acts ++ (runLoop ht ep2 es2).2)
      | (.exited b, acts) => (.exited b, acts) := by
  induction es1 generalizing ep with
  | nil => simp [runLoop]
  | cons e es ih =>
    rw [List.cons_append]
    rcases hs : wsStep ht ep e with ⟨ep3, a⟩ | ⟨err, a⟩
    · simp only [runLoop, hs]
      rw [ih ep3]
      rcases hr : runLoop ht ep3 es with ⟨r, a2⟩
      rcases r with ep4 | b <;> simp [List.append_assoc]
    · simp only [runLoop, hs]

lemma runLoop_append_running (ht : String → Except Unit Unit) (ep ep2 : Bool)
    (es1 es2 : List WsEvent) (acts : List WsAction)
    (h : runLoop ht ep es1 = (.running ep2, acts)) :
    runLoop ht ep (es1 ++ es2) =
      ((runLoop ht ep2 es2).1, acts ++ (runLoop ht ep2 es2).2) := by
  rw [runLoop_append ht ep es1 es2, h]

lemma runLoop_append_exited (ht : String → Except Unit Unit) (ep b : Bool)
    (es1 es2 : List WsEvent) (acts : List WsAction)
    (h : runLoop ht ep es1 = (.exited b, acts)) :
    runLoop ht ep (es1 ++ es2) = (.exited b, acts) := by
  rw [runLoop_append ht ep es1 es2, h]

lemma preservesPongWait_step (ht : String → Except Unit Unit) (e : WsEvent)
    (h : preservesPongWait ht e) : ∃ acts, wsStep ht true e = .next true acts := by
  cases e with
  | dispatch msg sendOk =>
    simp only [preservesPongWait] at h
    subst h
    exact ⟨_, rfl⟩
  | sockItem m =>
    obtain ⟨h1, h2⟩ := h
    refine ⟨[], ?_⟩
    simp [wsStep, h1, h2]
  | frontendGone => exact absurd h (by simp [preservesPongWait])
  | keepalive pingOk => exact absurd h (by simp [preservesPongWait])
  | sockErr => exact absurd h (by simp [preservesPongWait])
  | sockEnd => exact absurd h (by simp [preservesPongWait])

lemma pong_stuck (ht : String → Except Unit Unit) (ok : Bool) (es rest : List WsEvent)
    (h : ∀ e ∈ es, preservesPongWait ht e) :
    (runLoop ht true (es ++ .keepalive ok :: rest)).1 = .exited true := by
  induction es with
  | nil => simp [runLoop, wsStep]
  | cons e es ih =>
    obtain ⟨acts, hs⟩ := preservesPongWait_step ht e (h e (List.mem_cons_self e es))
    have := ih fun x hx => h x (List.mem_cons_of_mem e hx)
    simp [runLoop, hs, this]

/-! ## A concrete environment for witnesses and counterexamples

`demoParseUrl` behaves as the `url` crate does on the handful of concrete
strings used below: absolute URLs parse with their scheme, strings with no
scheme are rejected as relative. `demoCtx`'s filesystem has exactly the
paths under `/tmp/`. -/

def demoParseUrl (s : String) : Except String Url :=
  if strStartsWith s "http://" then .ok ⟨"http", none, s⟩
  else if strStartsWith s "https://" then .ok ⟨"https", none, s⟩
  else if strStartsWith s "ws://" then .ok ⟨"ws", none, s⟩
  else if strStartsWith s "wss://" then .ok ⟨"wss", none, s⟩
  else if strStartsWith s "file://" then .ok ⟨"file", none, s⟩
  else .error "relative URL without a base"

def demoCtx : ParseCtx where
  parseUrl := demoParseUrl
  isSocketAddr := fun _ => false
  stat := fun p =>
    if strStartsWith p "/tmp/" then .ok () else .error "No such file or directory (os error 2)"

/-! ## Claims -/

/-- Claim C5: the three retry builders are the identity on `Http` and
`Ipc` descriptors, and on a `Ws` descriptor they keep the url and auth
fields and replace only the retry fields they set. -/
theorem claim_C5_with_retry_frame_effect :
    (∀ (u : Url) (r : Nat) (i : Duration),
      (BuiltInConnectionString.Http u).with_max_retries r = .Http u ∧
      (BuiltInConnectionString.Http u).with_retry_interval i = .Http u ∧
      (BuiltInConnectionString.Http u).with_retry_settings r i = .Http u) ∧
    (∀ (p : String) (r : Nat) (i : Duration),
      (BuiltInConnectionString.Ipc p).with_max_retries r = .Ipc p ∧
      (BuiltInConnectionString.Ipc p).with_retry_interval i = .Ipc p ∧
      (BuiltInConnectionString.Ipc p).with_retry_settings r i = .Ipc p) ∧
    (∀ (u : Url) (a : Option Authorization) (mr : Option Nat) (ri : Option Duration)
        (r : Nat) (i : Duration),
      (BuiltInConnectionString.Ws u a mr ri).with_max_retries r = .Ws u a (some r) ri ∧
      (BuiltInConnectionString.Ws u a mr ri).with_retry_interval i = .Ws u a mr (some i) ∧
      (BuiltInConnectionString.Ws u a mr ri).with_retry_settings r i =
        .Ws u a (some r) (some i)) :=
  ⟨fun _ _ _ => ⟨rfl, rfl, rfl⟩, fun _ _ _ => ⟨rfl, rfl, rfl⟩,
   fun _ _ _ _ _ _ => ⟨rfl, rfl, rfl⟩⟩

/-- Claim C10: on every descriptor, `with_retry_settings r i` equals
`with_max_retries r` followed by `with_retry_interval i`, and the two
single-field setters commute. -/
theorem claim_C10_retry_setters_compose (d : BuiltInConnectionString) (r : Nat) (i : Duration) :
    d.with_retry_settings r i = (d.with_max_retries r).with_retry_interval i ∧
    (d.with_max_retries r).with_retry_interval i =
      (d.with_retry_interval i).with_max_retries r := by
  cases d <;> exact ⟨rfl, rfl⟩

/-- Claim C9: `WsConnect::new` defaults to `max_retries = 10` and
`retry_interval = 3 s`; connecting a `Ws` descriptor leaves those defaults
in the handle's effective retry configuration when the descriptor's retry
fields are absent, and present fields override them. -/
theorem claim_C9_retry_defaults (u : Url) (s : String) (a : Option Authorization)
    (r : Nat) (i : Duration) :
    (WsConnect.new s).max_retries = 10 ∧
    (WsConnect.new s).retry_interval = Duration.from_secs 3 ∧
    connectRetryConfig u a none none = ⟨10, Duration.from_secs 3⟩ ∧
    connectRetryConfig u a (some r) none = ⟨r, Duration.from_secs 3⟩ ∧
    connectRetryConfig u a none (some i) = ⟨10, i⟩ ∧
    connectRetryConfig u a (some r) (some i) = ⟨r, i⟩ := by
  refine ⟨rfl, rfl, ?_, ?_, ?_, ?_⟩ <;> cases a <;> rfl

/-- Claim C4: `WsBackend::handle` fails on binary frames and on close
frames with or without a reason, succeeds on ping, pong and raw frames,
forwards text to the response-routing logic, and — among non-text
messages — fails exactly on binary and close. -/
theorem claim_C4_handle_classification (ht : String → Except Unit Unit) :
    (∀ b, WsBackend.handle ht (.binary b) = .error ()) ∧
    (∀ f, WsBackend.handle ht (.close f) = .error ()) ∧
    (∀ b, WsBackend.handle ht (.ping b) = .ok ()) ∧
    (∀ b, WsBackend.handle ht (.pong b) = .ok ()) ∧
    (WsBackend.handle ht .frame = .ok ()) ∧
    (∀ t, WsBackend.handle ht (.text t) = ht t) ∧
    (∀ m : WsMessage, (∀ t, m ≠ .text t) →
      (WsBackend.handle ht m = .error () ↔ (∃ b, m = .binary b) ∨ (∃ f, m = .close f))) := by
  refine ⟨fun _ => rfl, fun _ => rfl, fun _ => rfl, fun _ => rfl, rfl, fun _ => rfl, ?_⟩
  intro m hm
  cases m with
  | text t => exact absurd rfl (hm t)
  | binary b => simp [WsBackend.handle]
  | close f => simp [WsBackend.handle]
  | ping b => simp [WsBackend.handle]
  | pong b => simp [WsBackend.handle]
  | frame => simp [WsBackend.handle]

theorem claim_C4_witness :
    WsBackend.handle (fun _ => .ok ()) (.binary []) = .error () :=
  ((claim_C4_handle_classification (fun _ => .ok ())).2.2.2.2.2.2 (.binary [])
    (by intro t h; cases h)).mpr (Or.inl ⟨[], rfl⟩)

/-- Claim C2: when the keepalive deadline fires with a pong outstanding
the loop breaks with `errored = true`; when it fires with no pong
outstanding the driver resets the deadline, sends a ping with empty
payload and starts expecting a pong (breaking with `errored = true` if
that send fails); and from a state with a pong outstanding, any stretch of
activity that neither clears the flag nor breaks the loop ends, at the
next deadline, in an error exit whose driver run signals the frontend. -/
theorem claim_C2_keepalive (ht : String → Except Unit Unit) :
    (∀ b, wsStep ht true (.keepalive b) = .exit true []) ∧
    (wsStep ht false (.keepalive true) = .next true [.resetKeepalive, .sendPing []]) ∧
    (wsStep ht false (.keepalive false) = .exit true [.resetKeepalive, .sendPing []]) ∧
    (∀ (ok : Bool) (es rest : List WsEvent), (∀ e ∈ es, preservesPongWait ht e) →
      (runLoop ht true (es ++ .keepalive ok :: rest)).1 = .exited true) ∧
    (∀ (ok : Bool) (es rest : List WsEvent), (∀ e ∈ es, preservesPongWait ht e) →
      WsAction.closeWithError ∈
        (driverRun ht (.keepalive true :: (es ++ .keepalive ok :: rest))).2) := by
  refine ⟨fun b => rfl, rfl, rfl, pong_stuck ht, ?_⟩
  intro ok es rest h
  have h1 := pong_stuck ht ok es rest h
  rcases hr : runLoop ht true (es ++ .keepalive ok :: rest) with ⟨r, acts⟩
  rw [hr] at h1
  simp only at h1
  subst h1
  have h2 : runLoop ht false (.keepalive true :: (es ++ .keepalive ok :: rest)) =
      (.exited true, [WsAction.resetKeepalive, WsAction.sendPing []] ++ acts) := by
    simp [runLoop, wsStep, hr]
  simp [driverRun, h2]

theorem claim_C2_witness :
    WsAction.closeWithError ∈
      (driverRun (fun _ => .ok ()) [.keepalive true, .keepalive true]).2 :=
  (claim_C2_keepalive (fun _ => .ok ())).2.2.2.2 true [] []
    (fun e h => absurd h (List.not_mem_nil e))

/-- Claim C3: across a whole driver run, `close_with_error` is signaled
iff the loop broke with `errored = true`; and from any still-running
state, the frontend channel yielding `None` makes the loop break with
`errored = false` and no error signaled. -/
theorem claim_C3_close_iff_errored (ht : String → Except Unit Unit) :
    (∀ es : List WsEvent,
      WsAction.closeWithError ∈ (driverRun ht es).2 ↔ (driverRun ht es).1 = .exited true) ∧
    (∀ (pre rest : List WsEvent) (ep : Bool) (acts : List WsAction),
      runLoop ht false pre = (.running ep, acts) →
      (driverRun ht (pre ++ .frontendGone :: rest)).1 = .exited false ∧
      WsAction.closeWithError ∉ (driverRun ht (pre ++ .frontendGone :: rest)).2) := by
  constructor
  · intro es
    have hnc := runLoop_no_close ht false es
    rcases hr : runLoop ht false es with ⟨r, acts⟩
    rw [hr] at hnc
    simp only at hnc
    by_cases he : r = .exited true
    · subst he
      simp [driverRun, hr]
    · simp [driverRun, hr, he, hnc]
  · intro pre rest ep acts hpre
    have h1 : runLoop ht ep (WsEvent.frontendGone :: rest) = (.exited false, []) := by
      simp [runLoop, wsStep]
    have h2 : runLoop ht false (pre ++ .frontendGone :: rest) = (.exited false, acts ++ []) := by
      rw [runLoop_append_running ht false ep pre (.frontendGone :: rest) acts hpre, h1]
    have hnc := runLoop_no_close ht false pre
    rw [hpre] at hnc
    simp only at hnc
    constructor
    · simp [driverRun, h2]
    · simp [driverRun, h2, hnc]

theorem claim_C3_witness :
    (driverRun (fun _ => .ok ()) ([] ++ .frontendGone :: [])).1 = .exited false ∧
    WsAction.closeWithError ∉ (driverRun (fun _ => .ok ()) ([] ++ .frontendGone :: [])).2 :=
  (claim_C3_close_iff_errored (fun _ => .ok ())).2 [] [] false [] rfl

/-- Claim C6: `try_as_http` hands the URL parser `http://` ++ s exactly
when s begins with `localhost:` or parses as a socket address (the if in
the statement), succeeds with `Http url` exactly when the possibly
rewritten string parses with scheme `http` or `https`, and on a wrong
scheme fails with an error naming the observed scheme. -/
theorem claim_C6_try_as_http (ctx : ParseCtx) (s : String) :
    (∀ u : Url,
      ctx.parseUrl (if strStartsWith s "localhost:" || ctx.isSocketAddr s
          then "http://" ++ s else s) = .ok u →
      (u.scheme = "http" ∨ u.scheme = "https") →
      BuiltInConnectionString.try_as_http ctx s = .ok (.Http u)) ∧
    (∀ d, BuiltInConnectionString.try_as_http ctx s = .ok d →
      ∃ u : Url,
        ctx.parseUrl (if strStartsWith s "localhost:" || ctx.isSocketAddr s
            then "http://" ++ s else s) = .ok u ∧
        (u.scheme = "http" ∨ u.scheme = "https") ∧ d = .Http u) ∧
    (∀ u : Url,
      ctx.parseUrl (if strStartsWith s "localhost:" || ctx.isSocketAddr s
          then "http://" ++ s else s) = .ok u →
      u.scheme ≠ "http" → u.scheme ≠ "https" →
      BuiltInConnectionString.try_as_http ctx s =
        .error (.custom ("invalid URL scheme: " ++ u.scheme ++
          "; expected `http` or `https`"))) := by
  refine ⟨?_, ?_, ?_⟩
  · intro u hp hor
    have hnot : ¬(u.scheme ≠ "http" ∧ u.scheme ≠ "https") := by
      rcases hor with h | h <;> simp [h]
    simp only [BuiltInConnectionString.try_as_http, hp]
    rw [if_neg hnot]
  · intro d hd
    simp only [BuiltInConnectionString.try_as_http] at hd
    split at hd
    · exact absurd hd (by simp)
    · rename_i url heq
      split at hd
      · exact absurd hd (by simp)
      · rename_i hsc
        simp only [Except.ok.injEq] at hd
        refine ⟨url, heq, ?_, hd.symm⟩
        by_cases h1 : url.scheme = "http"
        · exact Or.inl h1
        · right
          by_contra h2
          exact hsc ⟨h1, h2⟩
  · intro u hp h1 h2
    simp only [BuiltInConnectionString.try_as_http, hp]
    rw [if_pos ⟨h1, h2⟩]

theorem claim_C6_witness :
    BuiltInConnectionString.try_as_http demoCtx "https://h" =
      .ok (.Http ⟨"https", none, "https://h"⟩) :=
  (claim_C6_try_as_http demoCtx "https://h").1 ⟨"https", none, "https://h"⟩
    (by decide) (Or.inr rfl)

/-- Claim C7: `try_as_ws` succeeds exactly when the possibly
`ws://`-rewritten string parses with scheme `ws` or `wss`; on success the
descriptor carries the authorization extracted from the URL's userinfo
(absent when there is no userinfo) and both retry fields absent; a wrong
scheme fails with an error naming the observed scheme. -/
theorem claim_C7_try_as_ws (ctx : ParseCtx) (s : String) :
    (∀ u : Url,
      ctx.parseUrl (if strStartsWith s "localhost:" || ctx.isSocketAddr s
          then "ws://" ++ s else s) = .ok u →
      (u.scheme = "ws" ∨ u.scheme = "wss") →
      BuiltInConnectionString.try_as_ws ctx s =
        .ok (.Ws u (BuiltInConnectionString.extract_from_url u) none none)) ∧
    (∀ d, BuiltInConnectionString.try_as_ws ctx s = .ok d →
      ∃ u : Url,
        ctx.parseUrl (if strStartsWith s "localhost:" || ctx.isSocketAddr s
            then "ws://" ++ s else s) = .ok u ∧
        (u.scheme = "ws" ∨ u.scheme = "wss") ∧
        d = .Ws u (BuiltInConnectionString.extract_from_url u) none none) ∧
    (∀ u : Url,
      ctx.parseUrl (if strStartsWith s "localhost:" || ctx.isSocketAddr s
          then "ws://" ++ s else s) = .ok u →
      u.scheme ≠ "ws" → u.scheme ≠ "wss" →
      BuiltInConnectionString.try_as_ws ctx s =
        .error (.custom ("invalid URL scheme: " ++ u.scheme ++
          "; expected `ws` or `wss`"))) ∧
    (∀ u : Url, u.userinfo = none → BuiltInConnectionString.extract_from_url u = none) := by
  refine ⟨?_, ?_, ?_, ?_⟩
  · intro u hp hor
    have hnot : ¬(u.scheme ≠ "ws" ∧ u.scheme ≠ "wss") := by
      rcases hor with h | h <;> simp [h]
    simp only [BuiltInConnectionString.try_as_ws, hp]
    rw [if_neg hnot]
  · intro d hd
    simp only [BuiltInConnectionString.try_as_ws] at hd
    split at hd
    · exact absurd hd (by simp)
    · rename_i url heq
      split at hd
      · exact absurd hd (by simp)
      · rename_i hsc
        simp only [Except.ok.injEq] at hd
        refine ⟨url, heq, ?_, hd.symm⟩
        by_cases h1 : url.scheme = "ws"
        · exact Or.inl h1
        · right
          by_contra h2
          exact hsc ⟨h1, h2⟩
  · intro u hp h1 h2
    simp only [BuiltInConnectionString.try_as_ws, hp]
    rw [if_pos ⟨h1, h2⟩]
  · intro u hu
    simp [BuiltInConnectionString.extract_from_url, hu]

theorem claim_C7_witness :
    BuiltInConnectionString.try_as_ws demoCtx "ws://h" =
      .ok (.Ws ⟨"ws", none, "ws://h"⟩ none none none) :=
  (claim_C7_try_as_ws demoCtx "ws://h").1 ⟨"ws", none, "ws://h"⟩
    (by decide) (Or.inl rfl)

/-- Claim C8, counterexample to "returns Ipc with the canonicalized
stripped path": on `ipc:///tmp/../etc/x` (which stats successfully) the
code returns the stripped path verbatim, which differs from its
canonicalized form. -/
theorem claim_C8_counterexample :
    BuiltInConnectionString.try_as_ipc demoCtx "ipc:///tmp/../etc/x" =
      .ok (.Ipc "/tmp/../etc/x") ∧
    canonicalizePath "/tmp/../etc/x" = "/etc/x" ∧
    ("/tmp/../etc/x" : String) ≠ "/etc/x" := by
  refine ⟨?_, ?_, ?_⟩ <;> decide

/-- Claim C8 as amended: `try_as_ipc` strips a leading `file://` prefix,
else a leading `ipc://` prefix, in that precedence, and returns `Ipc` with
the stripped path verbatim (no canonicalization) when statting succeeds;
a stat failure yields a parse error whose message carries the path and
the underlying OS error. -/
theorem claim_C8_amended (ctx : ParseCtx) (s : String) :
    (strStartsWith s "file://" = true →
      BuiltInConnectionString.stripIpcScheme s = strDrop s 7) ∧
    (strStartsWith s "file://" = false → strStartsWith s "ipc://" = true →
      BuiltInConnectionString.stripIpcScheme s = strDrop s 6) ∧
    (strStartsWith s "file://" = false → strStartsWith s "ipc://" = false →
      BuiltInConnectionString.stripIpcScheme s = s) ∧
    (ctx.stat (BuiltInConnectionString.stripIpcScheme s) = .ok () →
      BuiltInConnectionString.try_as_ipc ctx s =
        .ok (.Ipc (BuiltInConnectionString.stripIpcScheme s))) ∧
    (∀ e, ctx.stat (BuiltInConnectionString.stripIpcScheme s) = .error e →
      BuiltInConnectionString.try_as_ipc ctx s =
        .error (.custom ("failed to read IPC path " ++
          BuiltInConnectionString.stripIpcScheme s ++ ": " ++ e))) := by
  refine ⟨?_, ?_, ?_, ?_, ?_⟩
  · intro h
    simp [BuiltInConnectionString.stripIpcScheme, h]
  · intro h1 h2
    simp [BuiltInConnectionString.stripIpcScheme, h1, h2]
  · intro h1 h2
    simp [BuiltInConnectionString.stripIpcScheme, h1, h2]
  · intro h
    simp [BuiltInConnectionString.try_as_ipc, h]
  · intro e h
    simp [BuiltInConnectionString.try_as_ipc, h]

theorem claim_C8_amended_witness :
    BuiltInConnectionString.try_as_ipc demoCtx "file:///tmp/a.sock" =
      .ok (.Ipc "/tmp/a.sock") := by
  have h := (claim_C8_amended demoCtx "file:///tmp/a.sock").2.2.2.1 (by decide)
  rwa [(by decide :
    BuiltInConnectionString.stripIpcScheme "file:///tmp/a.sock" = "/tmp/a.sock")] at h

/-- Claim C1, counterexample to "on total failure the HTTP sub-parser's
error is returned": on `file:///nope` all three sub-parsers fail, and
`from_str` returns the IPC sub-parser's error, not the HTTP one. -/
theorem claim_C1_counterexample :
    BuiltInConnectionString.try_as_http demoCtx "file:///nope" =
      .error (.custom "invalid URL scheme: file; expected `http` or `https`") ∧
    BuiltInConnectionString.try_as_ws demoCtx "file:///nope" =
      .error (.custom "invalid URL scheme: file; expected `ws` or `wss`") ∧
    BuiltInConnectionString.try_as_ipc demoCtx "file:///nope" =
      .error (.custom
        "failed to read IPC path /nope: No such file or directory (os error 2)") ∧
    BuiltInConnectionString.from_str demoCtx "file:///nope" =
      .error (.custom
        "failed to read IPC path /nope: No such file or directory (os error 2)") ∧
    BuiltInConnectionString.from_str demoCtx "file:///nope" ≠
      BuiltInConnectionString.try_as_http demoCtx "file:///nope" := by
  refine ⟨?_, ?_, ?_, ?_, ?_⟩ <;> decide

/-- Claim C1 as amended: `from_str` tries HTTP, WS, IPC in that fixed
order and the first success determines the result; when all three fail it
returns the IPC sub-parser's error (the last tried), not the HTTP one. -/
theorem claim_C1_amended (ctx : ParseCtx) (s : String) :
    (∀ d, BuiltInConnectionString.try_as_http ctx s = .ok d →
      BuiltInConnectionString.from_str ctx s = .ok d) ∧
    (∀ e d, BuiltInConnectionString.try_as_http ctx s = .error e →
      BuiltInConnectionString.try_as_ws ctx s = .ok d →
      BuiltInConnectionString.from_str ctx s = .ok d) ∧
    (∀ e1 e2, BuiltInConnectionString.try_as_http ctx s = .error e1 →
      BuiltInConnectionString.try_as_ws ctx s = .error e2 →
      BuiltInConnectionString.from_str ctx s = BuiltInConnectionString.try_as_ipc ctx s) := by
  refine ⟨?_, ?_, ?_⟩
  · intro d h
    simp [BuiltInConnectionString.from_str, BuiltInConnectionString.resOrElse, h]
  · intro e d h1 h2
    simp [BuiltInConnectionString.from_str, BuiltInConnectionString.resOrElse, h1, h2]
  · intro e1 e2 h1 h2
    simp [BuiltInConnectionString.from_str, BuiltInConnectionString.resOrElse, h1, h2]

theorem claim_C1_amended_witness :
    BuiltInConnectionString.from_str demoCtx "/tmp/x.sock" =
      BuiltInConnectionString.try_as_ipc demoCtx "/tmp/x.sock" :=
  (claim_C1_amended demoCtx "/tmp/x.sock").2.2
    (.custom "relative URL without a base") (.custom "relative URL without a base")
    (by decide) (by decide)
